import Mathlib

/-!
Verification of the MVCC visibility engine (spec sections 3-4.5) against a
shallow embedding. The repository sources provide the Validate operator's
test suite and headers; the Validate/MvccData/TransactionContext bodies are
not in the provided sources, so the operational definitions below are
modelled from the specification text and cross-checked against the
expectations of the provided test file (OperatorsValidateTest).
-/

set_option autoImplicit false

namespace Opossum

/-- Modelled from the spec: `CommitID` is an unsigned integer with a reserved
maximal value `MAX_COMMIT_ID` meaning "never invalidated"; the unset/pending
marker for a not-yet-committed begin cid and the unrefreshed `max_begin_cid`
cache also hold this maximal sentinel (spec sections 3 and 4.3 treat the
pending-insert sentinel and `MAX_COMMIT_ID` together; the missing
`MvccData::MAX_COMMIT_ID` constant is the 32-bit maximum). -/
def MAX_COMMIT_ID : Nat := 4294967295

/-- Modelled from the spec: the per-chunk MVCC metadata, parallel arrays of
begin commit ids, end commit ids and transaction ids, one entry per row slot
(the `MvccData` class is missing from the provided sources). -/
structure MvccData where
  begin_cids : List Nat
  end_cids : List Nat
  tids : List Nat
deriving Repr, DecidableEq

/-- Modelled from the spec: the `MvccData(size, begin_cid)` constructor used by
the tests builds `size` row slots, each with the given begin cid, end cid
`MAX_COMMIT_ID` (never invalidated) and transaction id 0 (no writer). -/
def MvccData.new (size : Nat) (begin_cid : Nat) : MvccData :=
  ⟨List.replicate size begin_cid, List.replicate size MAX_COMMIT_ID,
   List.replicate size 0⟩

/-- Modelled from the spec: a physical chunk owning one value segment (one
column suffices for the validated scenarios), its `MvccData`, and the chunk
visibility summary caches `max_begin_cid` and `invalid_row_count` (the `Chunk`
class is missing from the provided sources). -/
structure Chunk where
  values : List Int
  mvcc : MvccData
  max_begin_cid : Nat
  invalid_row_count : Nat
deriving Repr, DecidableEq

/-- Modelled from the spec: a freshly constructed chunk has an unrefreshed
`max_begin_cid` cache holding the `MAX_COMMIT_ID` sentinel and an
`invalid_row_count` of 0; the caches are only valid as of the last explicit
refresh call. -/
def Chunk.new (values : List Int) (m : MvccData) : Chunk :=
  ⟨values, m, MAX_COMMIT_ID, 0⟩

/-- Number of row slots of the chunk (all parallel arrays have this length by
the chunk invariant of spec section 3). -/
def Chunk.size (c : Chunk) : Nat :=
  c.mvcc.begin_cids.length

/-- Modelled from the spec: `update_max_begin_cid` recomputes the cached
`max_begin_cid` summary by scanning `begin_cids`; an empty chunk keeps the
uninitialized `MAX_COMMIT_ID` sentinel (spec section 4.3, condition 3). -/
def Chunk.update_max_begin_cid (c : Chunk) : Chunk :=
  { c with max_begin_cid :=
      match c.mvcc.begin_cids with
      | [] => MAX_COMMIT_ID
      | b :: bs => bs.foldl max b }

/-- Modelled from the spec: `increase_invalid_row_count(n)` increments the
cached count of invalidated rows. -/
def Chunk.increase_invalid_row_count (c : Chunk) (n : Nat) : Chunk :=
  { c with invalid_row_count := c.invalid_row_count + n }

namespace Validate

/-- Modelled from the spec: `Validate::is_entire_chunk_visible` (section 4.3);
given a chunk, a snapshot commit id and the already-locked MvccData, the chunk
is entirely visible iff `invalid_row_count == 0`, `max_begin_cid <= S`, and
`max_begin_cid != MAX_COMMIT_ID` (the pending/uninitialized sentinel). -/
def is_entire_chunk_visible (c : Chunk) (snapshot_commit_id : Nat) : Bool :=
  c.invalid_row_count == 0 &&
  c.max_begin_cid ≤ snapshot_commit_id &&
  c.max_begin_cid != MAX_COMMIT_ID

/-- Modelled from the spec: the per-row visibility test of Validate (section
4.4): `begin_cids[i] <= S && end_cids[i] > S`, with the same-transaction rule
that a row whose begin is still the pending sentinel but whose inserting
transaction equals the validating transaction is visible to that transaction. -/
def is_row_visible (our_tid snapshot_commit_id row_tid begin_cid end_cid : Nat) : Bool :=
  if begin_cid ≤ snapshot_commit_id then
    snapshot_commit_id < end_cid
  else
    row_tid == our_tid && begin_cid == MAX_COMMIT_ID &&
      snapshot_commit_id < end_cid

end Validate

/-- Per-row visibility of row slot `i` of a chunk, reading the parallel MVCC
arrays at that offset. -/
def Chunk.row_visible (c : Chunk) (our_tid snapshot_commit_id i : Nat) : Bool :=
  Validate.is_row_visible our_tid snapshot_commit_id
    (c.mvcc.tids.getD i 0) (c.mvcc.begin_cids.getD i 0) (c.mvcc.end_cids.getD i 0)

/-- Soundness invariant of the chunk visibility summary (spec sections 3 and
4.2): the caches are conservative: a zero `invalid_row_count` means no row has
ever been end-stamped, and a refreshed `max_begin_cid` (one that is not the
`MAX_COMMIT_ID` sentinel) bounds every row's begin cid. -/
def Chunk.summary_sound (c : Chunk) : Prop :=
  (c.invalid_row_count = 0 → ∀ i < c.size, c.mvcc.end_cids.getD i 0 = MAX_COMMIT_ID) ∧
  (c.max_begin_cid ≠ MAX_COMMIT_ID → ∀ i < c.size, c.mvcc.begin_cids.getD i 0 ≤ c.max_begin_cid)

instance (c : Chunk) : Decidable c.summary_sound := by
  unfold Chunk.summary_sound
  infer_instance

namespace Validate

/-- Modelled from the spec: the physical-chunk path of Validate (section 4.4):
attempt the whole-chunk shortcut; on success emit the chunk's full row range,
otherwise test each row individually. The result is the position list of
visible chunk offsets. -/
def validate_chunk (our_tid snapshot_commit_id : Nat) (c : Chunk) : List Nat :=
  if is_entire_chunk_visible c snapshot_commit_id then
    List.range c.size
  else
    (List.range c.size).filter (fun i => c.row_visible our_tid snapshot_commit_id i)

end Validate

/-- Modelled from the spec: `RowID` identifies a row by `(ChunkID,
ChunkOffset)` with value semantics. -/
structure RowID where
  chunk_id : Nat
  chunk_offset : Nat
deriving Repr, DecidableEq

/-- The empty chunk, used as the out-of-range default when resolving a
chunk id. -/
def emptyChunk : Chunk :=
  Chunk.new [] (MvccData.new 0 0)

/-- Per-row visibility of a `RowID` resolved against a table (a list of
physical chunks). -/
def rowid_visible (tbl : List Chunk) (our_tid snapshot_commit_id : Nat)
    (r : RowID) : Bool :=
  (tbl.getD r.chunk_id emptyChunk).row_visible our_tid snapshot_commit_id r.chunk_offset

namespace Validate

/-- Modelled from the spec: the general reference-chunk fallback of Validate
(section 4.4): each RowID of the position list is resolved to its chunk
individually and tested row-by-row; a RowID whose chunk index exceeds the
referenced table's chunk count is a dangling reference and a hard failure. -/
def validate_ref_fallback (tbl : List Chunk) (our_tid snapshot_commit_id : Nat)
    (pl : List RowID) : Option (List RowID) :=
  if pl.all (fun r => r.chunk_id < tbl.length) then
    some (pl.filter (fun r => rowid_visible tbl our_tid snapshot_commit_id r))
  else
    none

/-- Modelled from the spec: the single-chunk optimized reference path of
Validate (section 4.4): when the entire position list references the one
physical chunk `k`, its MvccData is locked once and the whole-chunk shortcut
is evaluated once; if the chunk is entirely visible the list is copied through
unfiltered, otherwise each referenced row is tested directly by offset. -/
def validate_ref_single_chunk (tbl : List Chunk) (k : Nat)
    (our_tid snapshot_commit_id : Nat) (pl : List RowID) : Option (List RowID) :=
  if k < tbl.length && pl.all (fun r => r.chunk_id == k) then
    if is_entire_chunk_visible (tbl.getD k emptyChunk) snapshot_commit_id then
      some pl
    else
      some (pl.filter (fun r =>
        (tbl.getD k emptyChunk).row_visible our_tid snapshot_commit_id r.chunk_offset))
  else
    none

/-- Modelled from the spec: Validate over a whole physical table emits, chunk
by chunk, the RowIDs of the visible rows (one output chunk per input chunk). -/
def validate_table (our_tid snapshot_commit_id : Nat) (tbl : List Chunk) : List RowID :=
  ((List.range tbl.length).map (fun k =>
    (validate_chunk our_tid snapshot_commit_id (tbl.getD k emptyChunk)).map
      (fun i => RowID.mk k i))).flatten

end Validate

/-- Values of a table at a list of RowIDs (used to name the output rows of a
validation by their key column). -/
def table_values_at (tbl : List Chunk) (rs : List RowID) : List Int :=
  rs.map (fun r => (tbl.getD r.chunk_id emptyChunk).values.getD r.chunk_offset 0)

/-- Modelled from the spec: `TransactionContext` carries a fixed transaction
id and the snapshot commit id fixed at creation (the `last_commit_id` of the
system at creation time); the class body is missing from the provided
sources. -/
structure TransactionContext where
  transaction_id : Nat
  snapshot_commit_id : Nat
deriving Repr, DecidableEq

/-- Modelled from the spec: the in-memory database state the transaction
manager and commit protocol act on: the table's chunks, the last-committed-id
watermark, and the next fresh transaction id. -/
structure DBState where
  table : List Chunk
  last_commit_id : Nat
  next_tid : Nat
deriving Repr, DecidableEq

/-- Modelled from the spec: `new_transaction_context` fixes the snapshot
commit id at the current `last_commit_id` and hands out a fresh transaction
id. -/
def DBState.new_transaction_context (st : DBState) : TransactionContext × DBState :=
  (⟨st.next_tid, st.last_commit_id⟩, { st with next_tid := st.next_tid + 1 })

/-- Modelled from the spec: a deleting writer records its transaction id on a
row it intends to invalidate; if the row's `tids` entry is already held this
is a write-write conflict and a hard failure. -/
def Chunk.mark_row_for_delete (c : Chunk) (i tid : Nat) : Option Chunk :=
  if c.mvcc.tids.getD i 0 = 0 then
    some { c with mvcc := { c.mvcc with tids := c.mvcc.tids.set i tid } }
  else
    none

/-- Modelled from the spec: the Delete operator marks every row of its input
position list for deletion by the transaction, failing on a dangling RowID or
a write-write conflict. -/
def DBState.delete_rows (st : DBState) (ctx : TransactionContext)
    (rows : List RowID) : Option DBState :=
  rows.foldlM (fun s r =>
    match s.table[r.chunk_id]? with
    | some c =>
        (c.mark_row_for_delete r.chunk_offset ctx.transaction_id).map
          (fun c' => { s with table := s.table.set r.chunk_id c' })
    | none => none) st

/-- Modelled from the spec: the per-chunk effect of the commit protocol
(section 4.5) for the transaction `tid` committing with id `C`: every row slot
whose `tids` entry is held by `tid` is finalized: a pending insert (begin cid
still the sentinel) gets `begin_cids = C`, a marked delete gets
`end_cids = C`, and the `tids` entry is cleared. -/
def MvccData.commit_tx (m : MvccData) (tid C : Nat) : MvccData :=
  ⟨(List.range m.begin_cids.length).map (fun i =>
      if m.tids.getD i 0 = tid ∧ m.begin_cids.getD i 0 = MAX_COMMIT_ID then C
      else m.begin_cids.getD i 0),
   (List.range m.begin_cids.length).map (fun i =>
      if m.tids.getD i 0 = tid ∧ m.begin_cids.getD i 0 ≠ MAX_COMMIT_ID then C
      else m.end_cids.getD i 0),
   (List.range m.begin_cids.length).map (fun i =>
      if m.tids.getD i 0 = tid then 0 else m.tids.getD i 0)⟩

/-- Modelled from the spec: committing a transaction on one chunk finalizes
its MVCC entries and increases the cached `invalid_row_count` by the number of
rows the transaction invalidated (end-stamped). -/
def Chunk.commit_tx (c : Chunk) (tid C : Nat) : Chunk :=
  { c with
    mvcc := c.mvcc.commit_tx tid C,
    invalid_row_count := c.invalid_row_count +
      ((List.range c.size).filter (fun i =>
        c.mvcc.tids.getD i 0 == tid && c.mvcc.begin_cids.getD i 0 != MAX_COMMIT_ID)).length }

/-- Modelled from the spec: the commit step (section 4.5): the transaction is
assigned the next strictly larger commit id, all its pending metadata updates
are applied, and only then the last-committed-id watermark advances to the new
commit id; the whole step is atomic from a reader's perspective. Returns the
new state and the assigned commit id. -/
def DBState.commit (st : DBState) (ctx : TransactionContext) : DBState × Nat :=
  let C := st.last_commit_id + 1
  ({ st with
     table := st.table.map (fun c => c.commit_tx ctx.transaction_id C),
     last_commit_id := C }, C)

/-- Modelled from the spec: appending freshly inserted rows of an active
transaction to a chunk: values appended, begin cids initialized to the pending
sentinel until commit, end cids to `MAX_COMMIT_ID`, and `tids` recording the
inserting transaction. -/
def Chunk.insert_rows (c : Chunk) (tid : Nat) (vs : List Int) : Chunk :=
  { c with
    values := c.values ++ vs,
    mvcc := ⟨c.mvcc.begin_cids ++ List.replicate vs.length MAX_COMMIT_ID,
             c.mvcc.end_cids ++ List.replicate vs.length MAX_COMMIT_ID,
             c.mvcc.tids ++ List.replicate vs.length tid⟩ }

/-- Modelled from the spec: a table scan with an equality predicate on the
value column, returning the position list of matching rows (used only to
select the row keyed `13` for deletion in the end-to-end scenario of the test
suite). -/
def table_scan_eq (tbl : List Chunk) (v : Int) : List RowID :=
  ((List.range tbl.length).map (fun k =>
    ((List.range (tbl.getD k emptyChunk).values.length).filter
      (fun i => (tbl.getD k emptyChunk).values.getD i 0 == v)).map
      (fun i => RowID.mk k i))).flatten

namespace Validate

/-- Modelled from the spec: Validate acquires the scoped metadata lock, reads
the MVCC arrays, and performs no writes; as a state-passing operation it
returns its output position lists together with the database state it was
given, which it leaves unchanged. -/
def validate_table_st (our_tid snapshot_commit_id : Nat) (st : DBState) :
    List RowID × DBState :=
  (validate_table our_tid snapshot_commit_id st.table, st)

end Validate

/-- Fixture: a two-row chunk as in the test SetUp after
`set_all_records_visible` and `set_record_invisible_for` (begin cids 0, one
end cid stamped 2), with the invalidation counted so the summary stays
conservative. -/
def c1Chunk : Chunk :=
  ⟨[1, 2], ⟨[0, 0], [2, MAX_COMMIT_ID], [0, 0]⟩, MAX_COMMIT_ID, 1⟩

/-- Fixture of the ChunkEntirelyVisible test: one row with begin cid 0 and a
refreshed summary. -/
def c2VisibleChunk : Chunk :=
  (Chunk.new [4] (MvccData.new 1 0)).update_max_begin_cid

/-- Fixture of the ChunkNotEntirelyVisibleWithMaxBeginCid test: one row with
begin cid 2 and a never-refreshed summary cache. -/
def c2StaleChunk : Chunk :=
  Chunk.new [4] (MvccData.new 1 2)

/-- The same one-row chunk with begin cid 2 after a summary refresh. -/
def c2RefreshedChunk : Chunk :=
  c2StaleChunk.update_max_begin_cid

/-- Fixture: a one-row fully visible chunk with refreshed summary, for the
shortcut-soundness witness. -/
def c3Chunk : Chunk :=
  (Chunk.new [4] (MvccData.new 1 0)).update_max_begin_cid

/-- Fixture of the ChunkNotEntirelyVisibleWithInvalidRows test: one
individually visible row, but one invalidation counted. -/
def c4Chunk : Chunk :=
  ((Chunk.new [4] (MvccData.new 1 0)).increase_invalid_row_count 1).update_max_begin_cid

/-- Fixture: an entirely visible two-row chunk for the reference-path
witness. -/
def c6ChunkA : Chunk :=
  (Chunk.new [1, 2] (MvccData.new 2 0)).update_max_begin_cid

/-- Fixture: a two-row chunk with one end-stamped row (counted as invalid) and
a stale summary, forcing the per-row reference path. -/
def c6ChunkB : Chunk :=
  ⟨[3, 4], ⟨[0, 0], [2, MAX_COMMIT_ID], [0, 0]⟩, MAX_COMMIT_ID, 1⟩

/-- Fixture table of two physical chunks for the reference-path witness. -/
def c6Table : List Chunk :=
  [c6ChunkA, c6ChunkB]

/-- Position list covering chunk 0 of the fixture table. -/
def c6ListA : List RowID :=
  [⟨0, 0⟩, ⟨0, 1⟩]

/-- Position list covering chunk 1 of the fixture table. -/
def c6ListB : List RowID :=
  [⟨1, 0⟩, ⟨1, 1⟩]

/-- Fixtures of the summary-only witness: two chunks with the same cached
summaries but different per-row arrays. -/
def c10ChunkA : Chunk :=
  ⟨[1], ⟨[0], [MAX_COMMIT_ID], [0]⟩, 5, 0⟩

/-- Second summary-only witness chunk; same caches as `c10ChunkA`, different
rows. -/
def c10ChunkB : Chunk :=
  ⟨[2, 3], ⟨[7, 1], [9, 9], [0, 0]⟩, 5, 0⟩

/-- Fixture: a committed one-row chunk into which the atomicity witness
transaction inserts. -/
def c9Base : Chunk :=
  Chunk.new [5] (MvccData.new 1 0)

/-- Fixture chunk for the end-to-end delete scenario: rows loaded from disk
are fully visible (begin cid 0, end cid `MAX_COMMIT_ID`, no writer). -/
def fixtureChunk (vs : List Int) : Chunk :=
  Chunk.new vs (MvccData.new vs.length 0)

/-- The 8-row fixture table of the end-to-end delete scenario, loaded with
chunk size 3; the row keyed 13 sits at RowID (1, 0). -/
def fixtureTable : List Chunk :=
  [fixtureChunk [10, 11, 12], fixtureChunk [13, 14, 15], fixtureChunk [16, 17]]

/-- Initial database state of the delete scenario. -/
def fixtureState0 : DBState :=
  ⟨fixtureTable, 1, 1⟩

/-- Transaction context of T1, fixed before any delete. -/
def t1ctx : TransactionContext :=
  (fixtureState0.new_transaction_context).1

/-- State after T1's context is handed out. -/
def fixtureState1 : DBState :=
  (fixtureState0.new_transaction_context).2

/-- T1's committed read: the rows Validate yields to T1's snapshot. -/
def t1rows : List RowID :=
  Validate.validate_table t1ctx.transaction_id t1ctx.snapshot_commit_id fixtureState1.table

/-- State after T1 commits. -/
def fixtureState2 : DBState :=
  (fixtureState1.commit t1ctx).1

/-- Transaction context of T2, the deleting transaction. -/
def t2ctx : TransactionContext :=
  (fixtureState2.new_transaction_context).1

/-- State after T2's context is handed out. -/
def fixtureState3 : DBState :=
  (fixtureState2.new_transaction_context).2

/-- The position list of the row keyed 13, selected for deletion by a scan. -/
def deleteTargets : List RowID :=
  table_scan_eq fixtureState3.table 13

/-- State after T2's delete marks its rows (a write-write conflict or dangling
reference would yield `none`). -/
def fixtureState4opt : Option DBState :=
  fixtureState3.delete_rows t2ctx deleteTargets

/-- The delete-marked state. -/
def fixtureState4 : DBState :=
  fixtureState4opt.getD fixtureState3

/-- State after T2 commits its delete. -/
def fixtureState5 : DBState :=
  (fixtureState4.commit t2ctx).1

/-- A fresh transaction context created after T2's commit. -/
def t3ctx : TransactionContext :=
  (fixtureState5.new_transaction_context).1

/-- Validating with T1's original context again, after T2's commit. -/
def t1rowsAgain : List RowID :=
  Validate.validate_table t1ctx.transaction_id t1ctx.snapshot_commit_id fixtureState5.table

/-- Validating with the fresh context created after T2's commit. -/
def t3rows : List RowID :=
  Validate.validate_table t3ctx.transaction_id t3ctx.snapshot_commit_id fixtureState5.table

theorem getD_map_range (f : Nat → Nat) (n i : Nat) (h : i < n) :
    ((List.range n).map f).getD i 0 = f i := by
  have hlen : i < ((List.range n).map f).length := by simpa using h
  rw [List.getD_eq_getElem _ _ hlen]
  simp

theorem getD_replicate_lt {α : Type} (x d : α) (n i : Nat) (h : i < n) :
    (List.replicate n x).getD i d = x := by
  have hlen : i < (List.replicate n x).length := by simpa using h
  rw [List.getD_eq_getElem _ _ hlen]
  simp

/-- Soundness of the whole-chunk shortcut relative to the per-row formula,
under the conservative-summary invariant: a chunk the shortcut reports
entirely visible has every row satisfying `begin <= S < end`. -/
theorem entire_chunk_visible_sound (c : Chunk) (S : Nat)
    (hsound : c.summary_sound) (hS : S < MAX_COMMIT_ID)
    (hvis : Validate.is_entire_chunk_visible c S = true) :
    ∀ i < c.size,
      c.mvcc.begin_cids.getD i 0 ≤ S ∧ S < c.mvcc.end_cids.getD i 0 := by
  intro i hi
  unfold Validate.is_entire_chunk_visible at hvis
  simp only [Bool.and_eq_true, beq_iff_eq, bne_iff_ne, decide_eq_true_eq] at hvis
  obtain ⟨⟨hinv, hle⟩, hne⟩ := hvis
  refine ⟨le_trans (hsound.2 hne i hi) hle, ?_⟩
  rw [hsound.1 hinv i hi]
  exact hS

/-- Every row of a shortcut-visible chunk also passes the per-row test of the
Validate operator. -/
theorem row_visible_of_entire (c : Chunk) (our_tid S : Nat)
    (hsound : c.summary_sound) (hS : S < MAX_COMMIT_ID)
    (hvis : Validate.is_entire_chunk_visible c S = true) :
    ∀ i < c.size, c.row_visible our_tid S i = true := by
  intro i hi
  obtain ⟨h1, h2⟩ := entire_chunk_visible_sound c S hsound hS hvis i hi
  unfold Chunk.row_visible Validate.is_row_visible
  rw [if_pos h1]
  exact decide_eq_true h2

/-- Claim C1: for every row with begin commit id B and end commit id E and
every snapshot commit id S, the Validate operator includes the row in its
output exactly when `B <= S` and `E > S`; the hypotheses state the MVCC
protocol context: the summary caches are conservative, the snapshot id is a
genuine commit id (below the sentinel), and the row is not a pending insert
of the validating transaction itself (its begin is an assigned commit id, or
it is held by a different transaction). -/
theorem C1_row_visibility_formula (c : Chunk) (our_tid S i : Nat)
    (hsound : c.summary_sound) (hS : S < MAX_COMMIT_ID) (hi : i < c.size)
    (hrow : c.mvcc.begin_cids.getD i 0 ≠ MAX_COMMIT_ID ∨
            c.mvcc.tids.getD i 0 ≠ our_tid) :
    i ∈ Validate.validate_chunk our_tid S c ↔
      (c.mvcc.begin_cids.getD i 0 ≤ S ∧ S < c.mvcc.end_cids.getD i 0) := by
  unfold Validate.validate_chunk
  by_cases hvis : Validate.is_entire_chunk_visible c S = true
  · rw [if_pos hvis]
    obtain ⟨h1, h2⟩ := entire_chunk_visible_sound c S hsound hS hvis i hi
    exact ⟨fun _ => ⟨h1, h2⟩, fun _ => List.mem_range.mpr hi⟩
  · rw [if_neg hvis, List.mem_filter]
    simp only [List.mem_range, hi, true_and]
    unfold Chunk.row_visible Validate.is_row_visible
    by_cases hb : c.mvcc.begin_cids.getD i 0 ≤ S
    · rw [if_pos hb]
      exact ⟨fun hd => ⟨hb, of_decide_eq_true hd⟩, fun hc => decide_eq_true hc.2⟩
    · rw [if_neg hb]
      constructor
      · intro hbool
        rw [Bool.and_eq_true, Bool.and_eq_true] at hbool
        rcases hrow with hne | htid
        · exact absurd (beq_iff_eq.mp hbool.1.2) hne
        · exact absurd (beq_iff_eq.mp hbool.1.1) htid
      · intro hc
        exact absurd hc.1 hb

/-- Witness for C1: in the two-row test chunk (begin cids 0, end cids 2 and
`MAX_COMMIT_ID`) under snapshot commit id 3, the row whose end cid was set to
2 is excluded from validation while the row with begin 0 and end
`MAX_COMMIT_ID` is included, and both match the formula. -/
theorem C1_row_visibility_formula_witness :
    (1 ∈ Validate.validate_chunk 1 3 c1Chunk ↔
      (c1Chunk.mvcc.begin_cids.getD 1 0 ≤ 3 ∧ 3 < c1Chunk.mvcc.end_cids.getD 1 0)) ∧
    (0 ∈ Validate.validate_chunk 1 3 c1Chunk ↔
      (c1Chunk.mvcc.begin_cids.getD 0 0 ≤ 3 ∧ 3 < c1Chunk.mvcc.end_cids.getD 0 0)) ∧
    1 ∈ Validate.validate_chunk 1 3 c1Chunk ∧
    0 ∉ Validate.validate_chunk 1 3 c1Chunk :=
  ⟨C1_row_visibility_formula c1Chunk 1 3 1 (by decide) (by decide) (by decide)
     (Or.inl (by decide)),
   C1_row_visibility_formula c1Chunk 1 3 0 (by decide) (by decide) (by decide)
     (Or.inl (by decide)),
   by decide, by decide⟩

/-- Claim C3: shortcut soundness: whenever `is_entire_chunk_visible` reports a
chunk entirely visible, every row of the chunk satisfies the per-row
visibility formula `begin <= S < end`, and the per-row test of Validate
agrees; the shortcut never produces a false positive (under the conservative
summary invariant and a genuine snapshot commit id). -/
theorem C3_shortcut_soundness (c : Chunk) (our_tid S : Nat)
    (hsound : c.summary_sound) (hS : S < MAX_COMMIT_ID)
    (hvis : Validate.is_entire_chunk_visible c S = true) :
    ∀ i < c.size,
      (c.mvcc.begin_cids.getD i 0 ≤ S ∧ S < c.mvcc.end_cids.getD i 0) ∧
      c.row_visible our_tid S i = true := by
  intro i hi
  exact ⟨entire_chunk_visible_sound c S hsound hS hvis i hi,
         row_visible_of_entire c our_tid S hsound hS hvis i hi⟩

/-- Witness for C3: the one-row entirely visible chunk of the
ChunkEntirelyVisible test satisfies the per-row formula at snapshot 1. -/
theorem C3_shortcut_soundness_witness :
    (c3Chunk.mvcc.begin_cids.getD 0 0 ≤ 1 ∧ 1 < c3Chunk.mvcc.end_cids.getD 0 0) ∧
    c3Chunk.row_visible 1 1 0 = true :=
  C3_shortcut_soundness c3Chunk 1 1 (by decide) (by decide) (by decide) 0 (by decide)

/-- Claim C2: for every chunk with locked MvccData and snapshot commit id S,
`Validate::is_entire_chunk_visible` returns true iff the chunk's
`invalid_row_count` is 0, the cached `max_begin_cid` is at most S, and
`max_begin_cid` is not the `MAX_COMMIT_ID` pending-insert sentinel; the
one-row chunk with begin cid 0 and refreshed summary is entirely visible to
snapshot 1, while the one-row chunk with begin cid 2 is not (whether its
summary is stale or refreshed). -/
theorem C2_entire_chunk_visible_characterization :
    (∀ (c : Chunk) (S : Nat),
       Validate.is_entire_chunk_visible c S = true ↔
         (c.invalid_row_count = 0 ∧ c.max_begin_cid ≤ S ∧
          c.max_begin_cid ≠ MAX_COMMIT_ID)) ∧
    Validate.is_entire_chunk_visible c2VisibleChunk 1 = true ∧
    Validate.is_entire_chunk_visible c2StaleChunk 1 = false ∧
    Validate.is_entire_chunk_visible c2RefreshedChunk 1 = false := by
  refine ⟨?_, by decide, by decide, by decide⟩
  intro c S
  unfold Validate.is_entire_chunk_visible
  simp [Bool.and_eq_true, and_assoc]

/-- Claim C4: any chunk whose cached `invalid_row_count` has been increased to
at least 1 is never reported entirely visible, for any snapshot commit id,
even when each of its rows individually passes the visibility test. -/
theorem C4_invalid_rows_block_shortcut (c : Chunk) (S : Nat)
    (h : 1 ≤ c.invalid_row_count) :
    Validate.is_entire_chunk_visible c S = false := by
  unfold Validate.is_entire_chunk_visible
  have hne : c.invalid_row_count ≠ 0 := by omega
  simp [hne]

/-- Witness for C4: the chunk of the ChunkNotEntirelyVisibleWithInvalidRows
test (one invalidated-row count, refreshed summary) is not entirely visible
to snapshot 1, although its single row individually passes the per-row
visibility test. -/
theorem C4_invalid_rows_block_shortcut_witness :
    Validate.is_entire_chunk_visible c4Chunk 1 = false ∧
    c4Chunk.row_visible 1 1 0 = true :=
  ⟨C4_invalid_rows_block_shortcut c4Chunk 1 (by decide), by decide⟩

/-- Claim C5: an empty chunk (zero rows, MvccData of size 0) is never
reported entirely visible, with or without a summary refresh, and the general
per-row path of Validate returns no rows for it. -/
theorem C5_empty_chunk_never_entirely_visible (b S our_tid : Nat) :
    Validate.is_entire_chunk_visible (Chunk.new [] (MvccData.new 0 b)) S = false ∧
    Validate.is_entire_chunk_visible
      ((Chunk.new [] (MvccData.new 0 b)).update_max_begin_cid) S = false ∧
    Validate.validate_chunk our_tid S (Chunk.new [] (MvccData.new 0 b)) = [] := by
  refine ⟨?_, ?_, ?_⟩ <;>
    simp [Chunk.new, MvccData.new, Validate.is_entire_chunk_visible,
      Validate.validate_chunk, Chunk.update_max_begin_cid, Chunk.size]

/-- Claim C10: the entirely-visible shortcut decides only from the chunk-level
cached summaries (`max_begin_cid` and `invalid_row_count`), never from the
per-row arrays; and a freshly constructed chunk whose cache was never
refreshed by `update_max_begin_cid` still holds the `MAX_COMMIT_ID` sentinel
and is never reported entirely visible, whatever its per-row begin cids. -/
theorem C10_shortcut_reads_only_summaries :
    (∀ (c c' : Chunk) (S : Nat),
       c.invalid_row_count = c'.invalid_row_count →
       c.max_begin_cid = c'.max_begin_cid →
       Validate.is_entire_chunk_visible c S =
         Validate.is_entire_chunk_visible c' S) ∧
    (∀ (vs : List Int) (n b S : Nat),
       Validate.is_entire_chunk_visible (Chunk.new vs (MvccData.new n b)) S = false) := by
  constructor
  · intro c c' S h1 h2
    unfold Validate.is_entire_chunk_visible
    rw [h1, h2]
  · intro vs n b S
    unfold Validate.is_entire_chunk_visible Chunk.new
    simp

/-- Witness for C10: two chunks with identical cached summaries but different
per-row arrays (one of them with every begin cid below the snapshot) get the
same shortcut verdict. -/
theorem C10_shortcut_reads_only_summaries_witness :
    Validate.is_entire_chunk_visible c10ChunkA 5 =
      Validate.is_entire_chunk_visible c10ChunkB 5 ∧
    Validate.is_entire_chunk_visible
      (Chunk.new [9] (MvccData.new 1 0)) 5 = false :=
  ⟨C10_shortcut_reads_only_summaries.1 c10ChunkA c10ChunkB 5 (by decide) (by decide),
   C10_shortcut_reads_only_summaries.2 [9] 1 0 5⟩

/-- The single-chunk optimized reference path agrees with the general
fallback on any position list that references only that one chunk, given a
conservative summary, in-bounds offsets, and a genuine snapshot id. -/
theorem ref_single_chunk_eq_fallback (tbl : List Chunk) (k our_tid S : Nat)
    (pl : List RowID)
    (hk : k < tbl.length) (hpl : ∀ r ∈ pl, r.chunk_id = k)
    (hsound : (tbl.getD k emptyChunk).summary_sound)
    (hoff : ∀ r ∈ pl, r.chunk_offset < (tbl.getD k emptyChunk).size)
    (hS : S < MAX_COMMIT_ID) :
    Validate.validate_ref_single_chunk tbl k our_tid S pl =
      Validate.validate_ref_fallback tbl our_tid S pl := by
  have hguard2 : (pl.all fun r => r.chunk_id == k) = true := by
    simp only [List.all_eq_true, beq_iff_eq]
    exact hpl
  have hguard1 : (pl.all fun r => decide (r.chunk_id < tbl.length)) = true := by
    simp only [List.all_eq_true, decide_eq_true_eq]
    intro r hr
    rw [hpl r hr]
    exact hk
  unfold Validate.validate_ref_single_chunk Validate.validate_ref_fallback
  rw [if_pos (by rw [Bool.and_eq_true]; exact ⟨decide_eq_true hk, hguard2⟩),
      if_pos hguard1]
  by_cases hvis : Validate.is_entire_chunk_visible (tbl.getD k emptyChunk) S = true
  · rw [if_pos hvis]
    congr 1
    symm
    rw [List.filter_eq_self]
    intro r hr
    unfold rowid_visible
    rw [hpl r hr]
    exact row_visible_of_entire _ our_tid S hsound hS hvis _ (hoff r hr)
  · rw [if_neg hvis]
    congr 1
    apply List.filter_congr
    intro r hr
    unfold rowid_visible
    rw [hpl r hr]

/-- Claim C6: reference-path equivalence: the general fallback (resolving
each RowID to its chunk individually) is semantically identical to the
single-chunk optimized path; in particular, on a position list spanning two
physical chunks, the fallback's output is exactly the concatenation of what
the optimized path produces on the equivalent per-chunk lists, given the same
underlying MVCC state. -/
theorem C6_reference_fallback_equivalence (tbl : List Chunk) (our_tid S : Nat)
    (pl1 pl2 : List RowID) (k1 k2 : Nat)
    (hk1 : k1 < tbl.length) (hk2 : k2 < tbl.length)
    (hpl1 : ∀ r ∈ pl1, r.chunk_id = k1) (hpl2 : ∀ r ∈ pl2, r.chunk_id = k2)
    (hs1 : (tbl.getD k1 emptyChunk).summary_sound)
    (hs2 : (tbl.getD k2 emptyChunk).summary_sound)
    (hoff1 : ∀ r ∈ pl1, r.chunk_offset < (tbl.getD k1 emptyChunk).size)
    (hoff2 : ∀ r ∈ pl2, r.chunk_offset < (tbl.getD k2 emptyChunk).size)
    (hS : S < MAX_COMMIT_ID) :
    Validate.validate_ref_single_chunk tbl k1 our_tid S pl1 =
      Validate.validate_ref_fallback tbl our_tid S pl1 ∧
    Validate.validate_ref_fallback tbl our_tid S (pl1 ++ pl2) =
      (Validate.validate_ref_single_chunk tbl k1 our_tid S pl1).bind (fun l1 =>
        (Validate.validate_ref_single_chunk tbl k2 our_tid S pl2).bind (fun l2 =>
          some (l1 ++ l2))) := by
  have e1 := ref_single_chunk_eq_fallback tbl k1 our_tid S pl1 hk1 hpl1 hs1 hoff1 hS
  have e2 := ref_single_chunk_eq_fallback tbl k2 our_tid S pl2 hk2 hpl2 hs2 hoff2 hS
  refine ⟨e1, ?_⟩
  rw [e1, e2]
  have g1 : (pl1.all fun r => decide (r.chunk_id < tbl.length)) = true := by
    simp only [List.all_eq_true, decide_eq_true_eq]
    intro r hr
    rw [hpl1 r hr]
    exact hk1
  have g2 : (pl2.all fun r => decide (r.chunk_id < tbl.length)) = true := by
    simp only [List.all_eq_true, decide_eq_true_eq]
    intro r hr
    rw [hpl2 r hr]
    exact hk2
  have g12 : ((pl1 ++ pl2).all fun r => decide (r.chunk_id < tbl.length)) = true := by
    rw [List.all_append, g1, g2]
    rfl
  unfold Validate.validate_ref_fallback
  rw [if_pos g12, if_pos g1, if_pos g2]
  simp [List.filter_append]

/-- Witness for C6: on the two-chunk fixture table (chunk 0 entirely visible,
chunk 1 with an end-stamped row), the optimized path agrees with the fallback
on the chunk-0 list, and the fallback on the concatenated two-chunk list is
the concatenation of the optimized per-chunk outputs. -/
theorem C6_reference_fallback_equivalence_witness :
    Validate.validate_ref_single_chunk c6Table 0 1 3 c6ListA =
      Validate.validate_ref_fallback c6Table 1 3 c6ListA ∧
    Validate.validate_ref_fallback c6Table 1 3 (c6ListA ++ c6ListB) =
      (Validate.validate_ref_single_chunk c6Table 0 1 3 c6ListA).bind (fun l1 =>
        (Validate.validate_ref_single_chunk c6Table 1 1 3 c6ListB).bind (fun l2 =>
          some (l1 ++ l2))) :=
  C6_reference_fallback_equivalence c6Table 1 3 c6ListA c6ListB 0 1
    (by decide) (by decide) (by decide) (by decide) (by decide) (by decide)
    (by decide) (by decide) (by decide)

/-- Claim C7: in the end-to-end delete scenario, T1 reads 8 rows and commits;
T2 then deletes the row keyed 13 and commits; validating with T1's original
context again still yields 8 rows, while validating with a fresh context
created after T2's commit yields 7 rows, excluding the row keyed 13. -/
theorem C7_validate_after_delete :
    t1rows.length = 8 ∧
    (13 : Int) ∈ table_values_at fixtureState1.table t1rows ∧
    fixtureState4opt.isSome = true ∧
    t1rowsAgain.length = 8 ∧
    t3rows.length = 7 ∧
    (13 : Int) ∉ table_values_at fixtureState5.table t3rows := by
  decide

/-- Claim C9: commit atomicity: a transaction that inserts N rows into a
chunk and then commits with the assigned commit id `C = L + 1` (with `L` the
last-committed watermark) makes all N rows visible to every snapshot commit
id at or after C, and none of them visible to any snapshot fixed before C;
moreover, in the pre-commit state (the only state with `last_commit_id < C`)
no begin or end cid is stamped with C, and the commit step applies all stamps
and advances the watermark to C in one atomic transition. The hypotheses are
the MVCC invariants: parallel arrays of equal length, a non-exhausted commit
id space, and freshness of the new commit id. -/
theorem C9_commit_atomicity (c0 : Chunk) (vals : List Int) (tid L : Nat)
    (hwf : c0.mvcc.end_cids.length = c0.size ∧ c0.mvcc.tids.length = c0.size)
    (hC : L + 1 < MAX_COMMIT_ID)
    (hfresh : ∀ i < c0.size,
      c0.mvcc.begin_cids.getD i 0 ≠ L + 1 ∧ c0.mvcc.end_cids.getD i 0 ≠ L + 1) :
    (∀ i, c0.size ≤ i → i < c0.size + vals.length →
      (∀ S, L + 1 ≤ S → S < MAX_COMMIT_ID → ∀ r,
        ((c0.insert_rows tid vals).commit_tx tid (L + 1)).row_visible r S i = true) ∧
      (∀ S, S < L + 1 → ∀ r,
        ((c0.insert_rows tid vals).commit_tx tid (L + 1)).row_visible r S i = false) ∧
      (∀ S, S < MAX_COMMIT_ID → ∀ r, r ≠ tid →
        (c0.insert_rows tid vals).row_visible r S i = false)) ∧
    (∀ j, j < (c0.insert_rows tid vals).size →
      (c0.insert_rows tid vals).mvcc.begin_cids.getD j 0 ≠ L + 1 ∧
      (c0.insert_rows tid vals).mvcc.end_cids.getD j 0 ≠ L + 1) ∧
    (∀ t, (DBState.commit ⟨[c0.insert_rows tid vals], L, t⟩ ⟨tid, L⟩).1.last_commit_id
            = L + 1 ∧
          (DBState.commit ⟨[c0.insert_rows tid vals], L, t⟩ ⟨tid, L⟩).1.table
            = [(c0.insert_rows tid vals).commit_tx tid (L + 1)]) := by
  have hszdef : c0.mvcc.begin_cids.length = c0.size := rfl
  have hbegin1 : ∀ i, c0.size ≤ i → i < c0.size + vals.length →
      (c0.insert_rows tid vals).mvcc.begin_cids.getD i 0 = MAX_COMMIT_ID := by
    intro i h1 h2
    unfold Chunk.insert_rows
    dsimp only
    rw [List.getD_append_right _ _ _ _ h1]
    exact getD_replicate_lt _ _ _ _ (by omega)
  have hend1 : ∀ i, c0.size ≤ i → i < c0.size + vals.length →
      (c0.insert_rows tid vals).mvcc.end_cids.getD i 0 = MAX_COMMIT_ID := by
    intro i h1 h2
    unfold Chunk.insert_rows
    dsimp only
    rw [List.getD_append_right _ _ _ _ (by rw [hwf.1]; exact h1), hwf.1]
    exact getD_replicate_lt _ _ _ _ (by omega)
  have htid1 : ∀ i, c0.size ≤ i → i < c0.size + vals.length →
      (c0.insert_rows tid vals).mvcc.tids.getD i 0 = tid := by
    intro i h1 h2
    unfold Chunk.insert_rows
    dsimp only
    rw [List.getD_append_right _ _ _ _ (by rw [hwf.2]; exact h1), hwf.2]
    exact getD_replicate_lt _ _ _ _ (by omega)
  have hlen1 : (c0.insert_rows tid vals).mvcc.begin_cids.length
      = c0.size + vals.length := by
    unfold Chunk.insert_rows
    dsimp only
    rw [List.length_append, List.length_replicate]
    rfl
  have hbegin2 : ∀ i, c0.size ≤ i → i < c0.size + vals.length →
      ((c0.insert_rows tid vals).commit_tx tid (L + 1)).mvcc.begin_cids.getD i 0
        = L + 1 := by
    intro i h1 h2
    unfold Chunk.commit_tx MvccData.commit_tx
    dsimp only
    rw [getD_map_range _ _ _ (by rw [hlen1]; omega)]
    rw [if_pos ⟨htid1 i h1 h2, hbegin1 i h1 h2⟩]
  have hend2 : ∀ i, c0.size ≤ i → i < c0.size + vals.length →
      ((c0.insert_rows tid vals).commit_tx tid (L + 1)).mvcc.end_cids.getD i 0
        = MAX_COMMIT_ID := by
    intro i h1 h2
    unfold Chunk.commit_tx MvccData.commit_tx
    dsimp only
    rw [getD_map_range _ _ _ (by rw [hlen1]; omega)]
    rw [if_neg (fun h => h.2 (hbegin1 i h1 h2))]
    exact hend1 i h1 h2
  have htid2 : ∀ i, c0.size ≤ i → i < c0.size + vals.length →
      ((c0.insert_rows tid vals).commit_tx tid (L + 1)).mvcc.tids.getD i 0 = 0 := by
    intro i h1 h2
    unfold Chunk.commit_tx MvccData.commit_tx
    dsimp only
    rw [getD_map_range _ _ _ (by rw [hlen1]; omega)]
    rw [if_pos (htid1 i h1 h2)]
  refine ⟨?_, ?_, fun t => ⟨rfl, rfl⟩⟩
  · intro i h1 h2
    refine ⟨?_, ?_, ?_⟩
    · intro S hS1 hS2 r
      unfold Chunk.row_visible
      rw [hbegin2 i h1 h2, hend2 i h1 h2]
      unfold Validate.is_row_visible
      rw [if_pos hS1]
      exact decide_eq_true hS2
    · intro S hS1 r
      unfold Chunk.row_visible
      rw [hbegin2 i h1 h2]
      unfold Validate.is_row_visible
      rw [if_neg (by omega)]
      have hne : ((L + 1 : Nat) == MAX_COMMIT_ID) = false :=
        beq_eq_false_iff_ne.mpr (by omega)
      rw [hne]
      simp
    · intro S hS1 r hr
      unfold Chunk.row_visible
      rw [hbegin1 i h1 h2, hend1 i h1 h2, htid1 i h1 h2]
      unfold Validate.is_row_visible
      rw [if_neg (by omega)]
      have hne : ((tid : Nat) == r) = false :=
        beq_eq_false_iff_ne.mpr (Ne.symm hr)
      rw [hne]
      simp
  · intro j hj
    have hj' : j < c0.size + vals.length := by
      have hj2 := hj
      unfold Chunk.size at hj2
      omega
    by_cases hcase : j < c0.size
    · constructor
      · unfold Chunk.insert_rows
        dsimp only
        rw [List.getD_append _ _ _ _ hcase]
        exact (hfresh j hcase).1
      · unfold Chunk.insert_rows
        dsimp only
        rw [List.getD_append _ _ _ _ (by rw [hwf.1]; exact hcase)]
        exact (hfresh j hcase).2
    · have h1 : c0.size ≤ j := by omega
      exact ⟨by rw [hbegin1 j h1 hj']; omega, by rw [hend1 j h1 hj']; omega⟩

/-- Witness for C9: the base one-row committed chunk receives two inserted
rows from transaction 4 while the watermark is 1; after the atomic commit
with commit id 2 the first new row is visible to a reader with snapshot 2 and
invisible to snapshot 1, was invisible to other transactions before the
commit at snapshot 3, the pre-commit state carries no cid-2 stamp, and the
commit step advances the watermark to 2. -/
theorem C9_commit_atomicity_witness :
    ((c9Base.insert_rows 4 [7, 8]).commit_tx 4 2).row_visible 9 2 1 = true ∧
    ((c9Base.insert_rows 4 [7, 8]).commit_tx 4 2).row_visible 9 1 1 = false ∧
    (c9Base.insert_rows 4 [7, 8]).row_visible 9 3 1 = false ∧
    ((c9Base.insert_rows 4 [7, 8]).mvcc.begin_cids.getD 0 0 ≠ 2 ∧
     (c9Base.insert_rows 4 [7, 8]).mvcc.end_cids.getD 0 0 ≠ 2) ∧
    (DBState.commit ⟨[c9Base.insert_rows 4 [7, 8]], 1, 5⟩ ⟨4, 1⟩).1.last_commit_id = 2 :=
  ⟨((C9_commit_atomicity c9Base [7, 8] 4 1 (by decide) (by decide)
      (by decide)).1 1 (by decide) (by decide)).1 2 (by decide) (by decide) 9,
   ((C9_commit_atomicity c9Base [7, 8] 4 1 (by decide) (by decide)
      (by decide)).1 1 (by decide) (by decide)).2.1 1 (by decide) 9,
   ((C9_commit_atomicity c9Base [7, 8] 4 1 (by decide) (by decide)
      (by decide)).1 1 (by decide) (by decide)).2.2 3 (by decide) 9 (by decide),
   (C9_commit_atomicity c9Base [7, 8] 4 1 (by decide) (by decide)
      (by decide)).2.1 0 (by decide),
   ((C9_commit_atomicity c9Base [7, 8] 4 1 (by decide) (by decide)
      (by decide)).2.2 5).1⟩

/-- Claim C8: Validate is read-only and idempotent: as a state-passing
operation it returns the database state unchanged (in particular all
`begin_cids`, `end_cids`, `tids` and the cached summaries of every chunk),
and a second execution on that state under the same transaction context
yields the identical output position list. -/
theorem C8_validate_idempotent_read_only (our_tid S : Nat) (st : DBState) :
    (Validate.validate_table_st our_tid S st).2 = st ∧
    (Validate.validate_table_st our_tid S
        ((Validate.validate_table_st our_tid S st).2)).1 =
      (Validate.validate_table_st our_tid S st).1 ∧
    (∀ k, (((Validate.validate_table_st our_tid S st).2).table.getD k emptyChunk).mvcc =
            (st.table.getD k emptyChunk).mvcc ∧
          (((Validate.validate_table_st our_tid S st).2).table.getD k emptyChunk).max_begin_cid =
            (st.table.getD k emptyChunk).max_begin_cid ∧
          (((Validate.validate_table_st our_tid S st).2).table.getD k emptyChunk).invalid_row_count =
            (st.table.getD k emptyChunk).invalid_row_count) :=
  ⟨rfl, rfl, fun _ => ⟨rfl, rfl, rfl⟩⟩

end Opossum
